import Mathlib

/-!
Shallow embedding of the finance models of the smart-home-building portal
(`src/app/models/finance.py`, unit data from `src/app/models/building.py`).

Monetary values in the source are Python `decimal.Decimal`s.  Under the default
context, every arithmetic operation (`+`, `*`, `/`) computes the exact result
and rounds it to 28 significant digits with half-even rounding.  We model a
`Decimal` by its rational value and the three operations by exact rational
arithmetic followed by `roundDec`, which rounds to 28 significant digits.
-/

namespace SmartHome

/-- Fuel-driven floor of log base 10 on naturals (`log10fuel n n` is exact for
every `n ≥ 1`). -/
def log10fuel : ℕ → ℕ → ℕ
  | 0, _ => 0
  | fuel + 1, n => if n < 10 then 0 else log10fuel fuel (n / 10) + 1

/-- Number of digits of `n` minus one, i.e. `⌊log₁₀ n⌋`, for `n ≥ 1`. -/
def natLog10 (n : ℕ) : ℕ := log10fuel n n

/-- Ceiling of log base 10 on naturals: least `k` with `n ≤ 10 ^ k`. -/
def natClog10 (n : ℕ) : ℕ := if n ≤ 1 then 0 else natLog10 (n - 1) + 1

/-- Floor of log base 10 of a positive rational: the adjusted exponent of the
corresponding `Decimal`. -/
def floorLog10 (q : ℚ) : ℤ :=
  if 1 ≤ q then (natLog10 ⌊q⌋.toNat : ℤ) else -(natClog10 ⌈q⁻¹⌉.toNat : ℤ)

/-- Round a rational to the nearest integer, ties to the even integer
(`decimal`'s default `ROUND_HALF_EVEN`). -/
def roundHalfEven (x : ℚ) : ℤ :=
  let n := ⌊x⌋
  let f := x - n
  if f < 1 / 2 then n
  else if 1 / 2 < f then n + 1
  else if n % 2 = 0 then n else n + 1

/-- Round a rational to 28 significant decimal digits, half-even: the value of
the result of a Python `Decimal` operation whose exact value is `q`, under the
default context (`prec = 28`, `rounding = ROUND_HALF_EVEN`). -/
def roundDec (q : ℚ) : ℚ :=
  if q = 0 then 0
  else
    let a : ℚ := |q|
    let e : ℤ := floorLog10 a - 27
    let m : ℤ := roundHalfEven (a * (10 : ℚ) ^ (-e))
    (if q < 0 then -1 else 1) * (m : ℚ) * (10 : ℚ) ^ e

/-- Python `Decimal` addition (value level). -/
def addDec (x y : ℚ) : ℚ := roundDec (x + y)

/-- Python `Decimal` multiplication (value level). -/
def mulDec (x y : ℚ) : ℚ := roundDec (x * y)

/-- Python `Decimal` division (value level; the divisor is nonzero in every
use below, matching the source's guards). -/
def divDec (x y : ℚ) : ℚ := roundDec (x / y)

theorem log10fuel_le (fuel : ℕ) : ∀ n : ℕ, 0 < n → n ≤ fuel → 10 ^ log10fuel fuel n ≤ n := by
  induction fuel with
  | zero => intro n h0 hf; omega
  | succ fuel ih =>
    intro n h0 hf
    simp only [log10fuel]
    split
    · simpa using h0
    · rename_i hn
      push_neg at hn
      have hdiv0 : 0 < n / 10 := Nat.div_pos hn (by norm_num)
      have hdivlt : n / 10 < n := Nat.div_lt_self h0 (by norm_num)
      have hrec := ih (n / 10) hdiv0 (by omega)
      calc 10 ^ (log10fuel fuel (n / 10) + 1)
          = 10 ^ log10fuel fuel (n / 10) * 10 := by rw [pow_succ]
        _ ≤ n / 10 * 10 := by omega
        _ ≤ n := Nat.div_mul_le_self n 10

theorem natLog10_le {n : ℕ} (h0 : 0 < n) : 10 ^ natLog10 n ≤ n :=
  log10fuel_le n n h0 le_rfl

theorem roundHalfEven_intCast (j : ℤ) : roundHalfEven (j : ℚ) = j := by
  unfold roundHalfEven
  rw [Int.floor_intCast]
  norm_num

/-- Evaluation form of `roundDec` on a positive rational. -/
theorem roundDec_pos_eq (q : ℚ) (hq : 0 < q) :
    roundDec q =
      (roundHalfEven (q * (10 : ℚ) ^ (27 - floorLog10 q)) : ℚ) *
        (10 : ℚ) ^ (floorLog10 q - 27) := by
  rw [roundDec, if_neg hq.ne', abs_of_pos hq]
  rw [if_neg (not_lt.mpr hq.le)]
  simp only [neg_sub, one_mul]

theorem floorLog10_le_of_lt (x : ℚ) (_hx : 0 < x) (d : ℕ) (hd : d ≤ 27)
    (hlt : x < 10 ^ (28 - d)) : floorLog10 x ≤ 27 - (d : ℤ) := by
  rw [floorLog10]
  split
  · rename_i h1
    have hfl1 : (1 : ℤ) ≤ ⌊x⌋ := by
      rw [Int.le_floor]
      exact_mod_cast h1
    have hN1 : 0 < ⌊x⌋.toNat := by omega
    have hNle : ((⌊x⌋.toNat : ℤ) : ℚ) ≤ x := by
      rw [Int.toNat_of_nonneg (by omega)]
      exact Int.floor_le x
    have hNlt : ⌊x⌋.toNat < 10 ^ (28 - d) := by
      have hq : ((⌊x⌋.toNat : ℤ) : ℚ) < ((10 : ℚ)) ^ (28 - d) := lt_of_le_of_lt hNle hlt
      have hq2 : ((⌊x⌋.toNat : ℚ)) < ((10 ^ (28 - d) : ℕ) : ℚ) := by push_cast; push_cast at hq; linarith
      exact_mod_cast hq2
    have hpow : 10 ^ natLog10 ⌊x⌋.toNat < 10 ^ (28 - d) :=
      lt_of_le_of_lt (natLog10_le hN1) hNlt
    have hlog : natLog10 ⌊x⌋.toNat < 28 - d :=
      (Nat.pow_lt_pow_iff_right (by norm_num)).mp hpow
    omega
  · have hc : (0 : ℤ) ≤ 27 - (d : ℤ) := by omega
    have : (0 : ℤ) ≤ (natClog10 ⌈x⁻¹⌉.toNat : ℤ) := Int.ofNat_nonneg _
    omega

/-- `roundDec` is the identity on non-negative values with at most 28
significant digits: `x = k / 10 ^ d` with `k < 10 ^ 28` (so in particular on
every amount of the `Numeric(12, 2)` / `Numeric(10, 6)` database columns). -/
theorem roundDec_eq_self (x : ℚ) (k d : ℕ) (hd : d ≤ 27)
    (hx : x = (k : ℚ) / 10 ^ d) (hk : k < 10 ^ 28) : roundDec x = x := by
  rcases Nat.eq_zero_or_pos k with hk0 | hk0
  · subst hk0
    have hx0 : x = 0 := by rw [hx]; norm_num
    rw [hx0, roundDec, if_pos rfl]
  · have hxpos : 0 < x := by
      rw [hx]
      positivity
    have hxlt : x < 10 ^ (28 - d) := by
      rw [hx, div_lt_iff₀ (by positivity)]
      have hcast : ((k : ℚ)) < ((10 ^ 28 : ℕ) : ℚ) := by exact_mod_cast hk
      push_cast at hcast
      calc (k : ℚ) < 10 ^ 28 := hcast
        _ = 10 ^ (28 - d) * 10 ^ d := by rw [← pow_add]; congr 1; omega
    have hL : floorLog10 x ≤ 27 - (d : ℤ) := floorLog10_le_of_lt x hxpos d hd hxlt
    set L := floorLog10 x with hLdef
    set cn : ℕ := (27 - L - d).toNat with hcndef
    have hcn : (cn : ℤ) = 27 - L - d := Int.toNat_of_nonneg (by omega)
    have hpow : (10 : ℚ) ^ (27 - L) = (10 : ℚ) ^ (cn + d) := by
      rw [← zpow_natCast (10 : ℚ) (cn + d)]
      congr 1
      push_cast
      omega
    have hx10 : x * (10 : ℚ) ^ (27 - L) = (((k * 10 ^ cn : ℕ) : ℤ) : ℚ) := by
      rw [hpow, hx]
      push_cast
      rw [pow_add]
      field_simp
      ring
    rw [roundDec_pos_eq x hxpos, ← hLdef, hx10, roundHalfEven_intCast]
    have hpow2 : (10 : ℚ) ^ (L - 27) = ((10 : ℚ) ^ (cn + d))⁻¹ := by
      rw [← zpow_natCast (10 : ℚ) (cn + d), ← zpow_neg]
      congr 1
      push_cast
      omega
    rw [hpow2, hx]
    push_cast
    rw [pow_add]
    field_simp
    ring

/-- The value Python computes for `Decimal(100) / 3`:
`33.33333333333333333333333333` (28 significant digits). -/
theorem divDec_100_3 :
    divDec 100 3 = 3333333333333333333333333333 / 10 ^ 26 := by
  rw [divDec, roundDec_pos_eq ((100 : ℚ) / 3) (by norm_num)]
  have hfloor : ⌊(100 : ℚ) / 3⌋ = 33 := by norm_num
  have hfl : floorLog10 ((100 : ℚ) / 3) = 1 := by
    rw [floorLog10, if_pos (by norm_num : (1 : ℚ) ≤ 100 / 3), hfloor]
    decide
  rw [hfl]
  have harg : (100 : ℚ) / 3 * (10 : ℚ) ^ ((27 : ℤ) - 1) =
      10000000000000000000000000000 / 3 := by
    norm_num
  rw [harg]
  have hrhe : roundHalfEven ((10000000000000000000000000000 : ℚ) / 3) =
      3333333333333333333333333333 := by
    have hf : ⌊(10000000000000000000000000000 : ℚ) / 3⌋ =
        3333333333333333333333333333 := by norm_num
    unfold roundHalfEven
    rw [hf]
    norm_num
  rw [hrhe]
  norm_num

/-- Expense allocation methods (`AllocationMethodEnum`). -/
inductive AllocationMethodEnum
  | SHARES
  | PER_UNIT
  | PER_PERSON
  | METERED
  | CUSTOM
  deriving DecidableEq

/-- The string `value` of each allocation method member. -/
def AllocationMethodEnum.value : AllocationMethodEnum → String
  | .SHARES => "shares"
  | .PER_UNIT => "per_unit"
  | .PER_PERSON => "per_person"
  | .METERED => "metered"
  | .CUSTOM => "custom"

/-- A building unit (`app.models.building.Unit`): `shares` is a nullable
non-negative `Numeric(10, 6)` column, `occupancy_count` a nullable
non-negative integer column. -/
structure Unit where
  id : ℕ
  shares : Option ℚ
  occupancy_count : Option ℕ
  is_active : Bool
  deriving DecidableEq

/-- Python dict assignment `allocations[unit.id] = amount` on an
insertion-ordered association list. -/
def dinsert (m : List (ℕ × ℚ)) (k : ℕ) (v : ℚ) : List (ℕ × ℚ) :=
  match m with
  | [] => [(k, v)]
  | p :: rest => if p.1 = k then (k, v) :: rest else p :: dinsert rest k v

/-- `unit.shares or Decimal('0')` (`None` and zero `Decimal`s are falsy). -/
def sharesOrZero (u : Unit) : ℚ := u.shares.getD 0

/-- `unit.occupancy_count or 0`. -/
def occupancyOrZero (u : Unit) : ℕ := u.occupancy_count.getD 0

/-- `Unit.query.filter_by(building_id=…, is_active=True).all()`: the eligible
(active) units of the building, in query order. -/
def activeUnits (units : List Unit) : List Unit :=
  units.filter fun u => u.is_active

/-- `sum(unit.shares or Decimal('0') for unit in units)`: a left fold of
`Decimal` additions starting from the `int` `0`. -/
def total_shares (units : List Unit) : ℚ :=
  units.foldl (fun acc u => addDec acc (sharesOrZero u)) 0

/-- `sum(unit.occupancy_count or 0 for unit in units)` (exact `int` sum). -/
def total_occupants (units : List Unit) : ℕ :=
  units.foldl (fun acc u => acc + occupancyOrZero u) 0

/-- `ExpenseCategory.calculate_allocations(total_amount)` from
`src/app/models/finance.py`: distribute `total_amount` over the building's
active units.  The `period` argument of the source is unused there and
omitted.  Python's `if unit.shares:` is falsy both for `None` and for a zero
`Decimal`. -/
def calculate_allocations (method : AllocationMethodEnum) (units : List Unit)
    (total_amount : ℚ) : List (ℕ × ℚ) :=
  let us := activeUnits units
  match method with
  | .SHARES =>
    let S := total_shares us
    if 0 < S then
      us.foldl (fun allocations u =>
        dinsert allocations u.id
          (match u.shares with
           | some s => if s = 0 then 0 else mulDec (divDec s S) total_amount
           | none => 0)) []
    else []
  | .PER_UNIT =>
    if us.length ≠ 0 then
      let amount_per_unit := divDec total_amount (us.length : ℚ)
      us.foldl (fun allocations u => dinsert allocations u.id amount_per_unit) []
    else []
  | .PER_PERSON =>
    let P := total_occupants us
    if 0 < P then
      let amount_per_person := divDec total_amount (P : ℚ)
      us.foldl (fun allocations u =>
        dinsert allocations u.id (mulDec amount_per_person (occupancyOrZero u : ℚ))) []
    else []
  | .METERED =>
    us.foldl (fun allocations u => dinsert allocations u.id 0) []
  | .CUSTOM =>
    us.foldl (fun allocations u => dinsert allocations u.id 0) []

/-- Invoice status values (`InvoiceStatusEnum`). -/
inductive InvoiceStatusEnum
  | UNPAID
  | PARTIAL
  | PAID
  | OVERDUE
  | CANCELLED
  deriving DecidableEq

/-- One entry of `invoice.details['late_fees']`.  The source stores
`float(fee_amount)` and `datetime.utcnow().isoformat()`; both are modelled by
their values (the amount exactly, the date as an abstract timestamp). -/
structure LateFeeEntry where
  amount : ℚ
  date : ℕ
  reason : String
  deriving DecidableEq

/-- An invoice (`app.models.finance.Invoice`).  `due_date` and the current
date are modelled as integer day numbers; `late_fees` is
`details['late_fees']`. -/
structure Invoice where
  amount_due : ℚ
  amount_paid : ℚ
  due_date : ℤ
  status : InvoiceStatusEnum
  late_fees : List LateFeeEntry
  deriving DecidableEq

/-- `Invoice.balance_due`. -/
def balance_due (inv : Invoice) : ℚ := inv.amount_due - inv.amount_paid

/-- `Invoice.is_overdue`: reads the *current* `status` field. -/
def is_overdue (inv : Invoice) (today : ℤ) : Prop :=
  inv.due_date < today ∧
    inv.status ≠ InvoiceStatusEnum.PAID ∧ inv.status ≠ InvoiceStatusEnum.CANCELLED

instance (inv : Invoice) (today : ℤ) : Decidable (is_overdue inv today) := by
  unfold is_overdue
  infer_instance

/-- `Invoice.update_status`: recompute `status` from the amounts (the
`db.session.commit()` of the source is persistence only). -/
def update_status (inv : Invoice) (today : ℤ) : Invoice :=
  if inv.amount_due ≤ inv.amount_paid then { inv with status := InvoiceStatusEnum.PAID }
  else if 0 < inv.amount_paid then { inv with status := InvoiceStatusEnum.PARTIAL }
  else if is_overdue inv today then { inv with status := InvoiceStatusEnum.OVERDUE }
  else { inv with status := InvoiceStatusEnum.UNPAID }

/-- `Invoice.add_late_fee(fee_amount)`: grow `amount_due` by the fee
(`Decimal` addition) and append an audit entry to `details['late_fees']`. -/
def add_late_fee (inv : Invoice) (fee_amount : ℚ) (now : ℕ) : Invoice :=
  { inv with
    amount_due := addDec inv.amount_due fee_amount
    late_fees := inv.late_fees ++
      [{ amount := fee_amount, date := now, reason := "Late payment fee" }] }

/-- A payment (`app.models.finance.Payment`); `invoice` is the nullable
relationship to its invoice. -/
structure Payment where
  amount : ℚ
  is_confirmed : Bool
  invoice : Option Invoice
  deriving DecidableEq

/-- `Payment.apply_to_invoice`: if the payment has an invoice and is
confirmed, add the amount to the invoice's `amount_paid`, recompute its
status, and return `True`; otherwise return `False`. -/
def apply_to_invoice (p : Payment) (today : ℤ) : Payment × Bool :=
  match p.invoice with
  | some inv =>
    if p.is_confirmed then
      let paidInv : Invoice := { inv with amount_paid := addDec inv.amount_paid p.amount }
      ({ p with invoice := some (update_status paidInv today) }, true)
    else (p, false)
  | none => (p, false)

/-- Snapshot stored on each allocation row (`formula_snapshot`).  The source
stores `float(self.amount_total)`; modelled by its value. -/
structure FormulaSnapshot where
  method : String
  total_amount : ℚ
  calculation_date : ℕ
  deriving DecidableEq

/-- An `expense_allocations` row. -/
structure ExpenseAllocation where
  expense_id : ℕ
  unit_id : ℕ
  amount : ℚ
  formula_snapshot : FormulaSnapshot
  deriving DecidableEq

/-- An expense (`app.models.finance.Expense`); `method` is the
`allocation_method` of its `category`. -/
structure Expense where
  id : ℕ
  amount_total : ℚ
  is_allocated : Bool
  method : AllocationMethodEnum
  deriving DecidableEq

/-- Result of `Expense.generate_allocations`: the updated expense, the
`expense_allocations` table content after the call, and the returned
`bool`. -/
structure GenerateResult where
  expense : Expense
  rows : List ExpenseAllocation
  returned : Bool
  deriving DecidableEq

/-- `Expense.generate_allocations`: guarded one-shot creation of the
allocation rows.  `units` are the building's units, `rows` the pre-existing
`expense_allocations` rows, `now` the `datetime.utcnow()` stamp. -/
def generate_allocations (e : Expense) (units : List Unit)
    (rows : List ExpenseAllocation) (now : ℕ) : GenerateResult :=
  if e.is_allocated then
    { expense := e, rows := rows, returned := false }
  else
    let allocations := calculate_allocations e.method units e.amount_total
    { expense := { e with is_allocated := true }
      rows := rows ++ allocations.map fun p =>
        { expense_id := e.id
          unit_id := p.1
          amount := p.2
          formula_snapshot :=
            { method := e.method.value
              total_amount := e.amount_total
              calculation_date := now } }
      returned := true }

/-- Keys of an allocation association list. -/
def keys (m : List (ℕ × ℚ)) : List ℕ := m.map Prod.fst

theorem roundDec_zero : roundDec 0 = 0 := by
  rw [roundDec, if_pos rfl]

theorem dinsert_not_mem (k : ℕ) (v : ℚ) :
    ∀ m : List (ℕ × ℚ), k ∉ keys m → dinsert m k v = m ++ [(k, v)] := by
  intro m
  induction m with
  | nil => intro _; rfl
  | cons p rest ih =>
    intro h
    rw [keys, List.map_cons, List.mem_cons] at h
    push_neg at h
    rw [dinsert, if_neg (fun hpk => h.1 hpk.symm), ih h.2, List.cons_append]

theorem foldl_dinsert_eq (f : Unit → ℚ) :
    ∀ (us : List Unit) (acc : List (ℕ × ℚ)),
      (us.map Unit.id).Nodup → (∀ u ∈ us, u.id ∉ keys acc) →
      us.foldl (fun m u => dinsert m u.id (f u)) acc =
        acc ++ us.map fun u => (u.id, f u) := by
  intro us
  induction us with
  | nil => intro acc _ _; simp
  | cons u rest ih =>
    intro acc hnd hdisj
    rw [List.map_cons, List.nodup_cons] at hnd
    rw [List.foldl_cons, dinsert_not_mem u.id (f u) acc (hdisj u (List.mem_cons_self u rest))]
    rw [ih (acc ++ [(u.id, f u)]) hnd.2 ?_]
    · rw [List.map_cons, List.append_assoc, List.singleton_append]
    · intro v hv
      rw [keys, List.map_append, List.mem_append]
      push_neg
      refine ⟨hdisj v (List.mem_cons_of_mem u hv), ?_⟩
      intro hmem
      rcases List.mem_map.mp hmem with ⟨q, hq, hq2⟩
      rw [List.mem_singleton] at hq
      subst hq
      change u.id = v.id at hq2
      exact hnd.1 (by rw [hq2]; exact List.mem_map_of_mem Unit.id hv)

/-- With pairwise-distinct unit identifiers, the SHARES loop produces one
entry per eligible unit, in order. -/
theorem calculate_allocations_SHARES_eq (units : List Unit) (total_amount : ℚ)
    (hnd : ((activeUnits units).map Unit.id).Nodup)
    (hS : 0 < total_shares (activeUnits units)) :
    calculate_allocations .SHARES units total_amount =
      (activeUnits units).map fun u =>
        (u.id,
          match u.shares with
          | some s => if s = 0 then 0
              else mulDec (divDec s (total_shares (activeUnits units))) total_amount
          | none => 0) := by
  simp only [calculate_allocations]
  rw [if_pos hS]
  exact foldl_dinsert_eq _ (activeUnits units) [] hnd (by simp [keys])

/-- With pairwise-distinct unit identifiers, the PER_UNIT loop produces one
entry per eligible unit, in order, all with the same amount. -/
theorem calculate_allocations_PER_UNIT_eq (units : List Unit) (total_amount : ℚ)
    (hnd : ((activeUnits units).map Unit.id).Nodup)
    (hne : (activeUnits units).length ≠ 0) :
    calculate_allocations .PER_UNIT units total_amount =
      (activeUnits units).map fun u =>
        (u.id, divDec total_amount ((activeUnits units).length : ℚ)) := by
  simp only [calculate_allocations]
  rw [if_pos hne]
  exact foldl_dinsert_eq _ (activeUnits units) [] hnd (by simp [keys])

/-- With pairwise-distinct unit identifiers, the PER_PERSON loop produces one
entry per eligible unit, in order. -/
theorem calculate_allocations_PER_PERSON_eq (units : List Unit) (total_amount : ℚ)
    (hnd : ((activeUnits units).map Unit.id).Nodup)
    (hP : 0 < total_occupants (activeUnits units)) :
    calculate_allocations .PER_PERSON units total_amount =
      (activeUnits units).map fun u =>
        (u.id, mulDec (divDec total_amount ((total_occupants (activeUnits units)) : ℚ))
          ((occupancyOrZero u : ℕ) : ℚ)) := by
  simp only [calculate_allocations]
  rw [if_pos hP]
  exact foldl_dinsert_eq _ (activeUnits units) [] hnd (by simp [keys])

/-- When the `Decimal` sum of eligible shares is zero, the SHARES branch
skips its loop entirely and returns the empty mapping. -/
theorem calculate_allocations_SHARES_zero (units : List Unit) (total_amount : ℚ)
    (h : total_shares (activeUnits units) = 0) :
    calculate_allocations .SHARES units total_amount = [] := by
  simp only [calculate_allocations]
  rw [if_neg (by rw [h]; exact lt_irrefl 0)]

/-- When the eligible occupancy total is zero, the PER_PERSON branch skips
its loop entirely and returns the empty mapping. -/
theorem calculate_allocations_PER_PERSON_zero (units : List Unit) (total_amount : ℚ)
    (h : total_occupants (activeUnits units) = 0) :
    calculate_allocations .PER_PERSON units total_amount = [] := by
  simp only [calculate_allocations]
  rw [if_neg (by omega)]

/-- Claim C10: an invoice with `amount_due = 0` and `amount_paid = 0` is
classified `PAID` by `Invoice.update_status` (the `amount_paid >= amount_due`
branch fires first), never `UNPAID` or `OVERDUE`, regardless of `due_date`,
the current date, or the stored status. -/
theorem C10_zero_due_zero_paid_is_PAID (inv : Invoice) (today : ℤ)
    (hdue : inv.amount_due = 0) (hpaid : inv.amount_paid = 0) :
    (update_status inv today).status = InvoiceStatusEnum.PAID := by
  rw [update_status, if_pos (by rw [hdue, hpaid] : inv.amount_due ≤ inv.amount_paid)]

/-- Witness for C10: a long-overdue zero invoice still comes out `PAID`. -/
theorem C10_zero_due_zero_paid_is_PAID_witness :
    (update_status
        { amount_due := 0, amount_paid := 0, due_date := -5,
          status := InvoiceStatusEnum.OVERDUE, late_fees := [] } 3).status =
      InvoiceStatusEnum.PAID :=
  C10_zero_due_zero_paid_is_PAID _ 3 rfl rfl

/-- A previously `PAID` invoice whose `amount_due` later grew (late fee)
while `amount_paid` stayed 0. -/
def invoiceC5 : Invoice :=
  { amount_due := 100, amount_paid := 0, due_date := 0,
    status := InvoiceStatusEnum.PAID, late_fees := [] }

/-- Claim C5 fails as stated: `invoiceC5` is not CANCELLED, is past due
(`due_date = 0 < 5 = today`) with `amount_paid = 0 < amount_due`, yet
`update_status` yields `UNPAID`, not `OVERDUE` — the recomputed status is not
a function of (`amount_paid`, `amount_due`, `due_date`, today) alone, because
`is_overdue` consults the stored pre-update status and suppresses OVERDUE on
a currently-`PAID` invoice. -/
theorem C5_counterexample :
    invoiceC5.status ≠ InvoiceStatusEnum.CANCELLED ∧
    invoiceC5.amount_paid = 0 ∧ invoiceC5.amount_due = 100 ∧
    invoiceC5.due_date < 5 ∧
    (update_status invoiceC5 5).status = InvoiceStatusEnum.UNPAID := by
  refine ⟨by simp [invoiceC5], rfl, rfl, by norm_num [invoiceC5], ?_⟩
  rw [update_status]
  rw [if_neg (by norm_num [invoiceC5] : ¬ invoiceC5.amount_due ≤ invoiceC5.amount_paid)]
  rw [if_neg (by norm_num [invoiceC5] : ¬ (0 : ℚ) < invoiceC5.amount_paid)]
  rw [if_neg (by simp [is_overdue, invoiceC5] : ¬ is_overdue invoiceC5 5)]

/-- Claim C5 amended: for a non-CANCELLED invoice, `update_status` computes
PAID / PARTIAL exactly as claimed, but the OVERDUE branch additionally
requires the stored pre-update status not to be PAID (via `is_overdue`);
otherwise the fallback is UNPAID. -/
theorem C5_amended (inv : Invoice) (today : ℤ)
    (hc : inv.status ≠ InvoiceStatusEnum.CANCELLED) :
    (update_status inv today).status =
      if inv.amount_due ≤ inv.amount_paid then InvoiceStatusEnum.PAID
      else if 0 < inv.amount_paid then InvoiceStatusEnum.PARTIAL
      else if inv.due_date < today ∧ inv.status ≠ InvoiceStatusEnum.PAID then
        InvoiceStatusEnum.OVERDUE
      else InvoiceStatusEnum.UNPAID := by
  rw [update_status]
  by_cases h1 : inv.amount_due ≤ inv.amount_paid
  · rw [if_pos h1, if_pos h1]
  · rw [if_neg h1, if_neg h1]
    by_cases h2 : 0 < inv.amount_paid
    · rw [if_pos h2, if_pos h2]
    · rw [if_neg h2, if_neg h2]
      by_cases h3 : inv.due_date < today ∧ inv.status ≠ InvoiceStatusEnum.PAID
      · rw [if_pos (show is_overdue inv today from ⟨h3.1, h3.2, hc⟩), if_pos h3]
      · rw [if_neg (show ¬ is_overdue inv today from fun hov => h3 ⟨hov.1, hov.2.1⟩),
          if_neg h3]

/-- An overdue unpaid invoice whose stored status is UNPAID. -/
def invoiceC5w : Invoice :=
  { amount_due := 100, amount_paid := 0, due_date := 0,
    status := InvoiceStatusEnum.UNPAID, late_fees := [] }

/-- Witness for the amended C5: on a non-CANCELLED, non-PAID, past-due unpaid
invoice the amended rule gives OVERDUE. -/
theorem C5_amended_witness :
    (update_status invoiceC5w 5).status = InvoiceStatusEnum.OVERDUE := by
  have h := C5_amended invoiceC5w 5 (by simp [invoiceC5w])
  rw [h]
  rw [if_neg (by norm_num [invoiceC5w] : ¬ invoiceC5w.amount_due ≤ invoiceC5w.amount_paid)]
  rw [if_neg (by norm_num [invoiceC5w] : ¬ (0 : ℚ) < invoiceC5w.amount_paid)]
  rw [if_pos ⟨by norm_num [invoiceC5w], by simp [invoiceC5w]⟩]

/-- A CANCELLED invoice, not yet due, nothing paid. -/
def invoiceC3 : Invoice :=
  { amount_due := 100, amount_paid := 0, due_date := 5,
    status := InvoiceStatusEnum.CANCELLED, late_fees := [] }

/-- Claim C3 fails on the code: `update_status` never preserves CANCELLED.
On the CANCELLED invoice `invoiceC3` (with `amount_paid = 0 < amount_due`,
`due_date` in the future) the recompute overwrites the status with UNPAID. -/
theorem C3_cancelled_overwritten :
    invoiceC3.status = InvoiceStatusEnum.CANCELLED ∧
    (update_status invoiceC3 0).status = InvoiceStatusEnum.UNPAID ∧
    InvoiceStatusEnum.UNPAID ≠ InvoiceStatusEnum.CANCELLED := by
  refine ⟨rfl, ?_, by simp⟩
  rw [update_status]
  rw [if_neg (by norm_num [invoiceC3] : ¬ invoiceC3.amount_due ≤ invoiceC3.amount_paid)]
  rw [if_neg (by norm_num [invoiceC3] : ¬ (0 : ℚ) < invoiceC3.amount_paid)]
  rw [if_neg (by simp [is_overdue, invoiceC3] : ¬ is_overdue invoiceC3 0)]

/-- An unpaid invoice of 100, due in 30 days. -/
def invoiceC2 : Invoice :=
  { amount_due := 100, amount_paid := 0, due_date := 30,
    status := InvoiceStatusEnum.UNPAID, late_fees := [] }

/-- A confirmed payment of 50 linked to `invoiceC2`. -/
def paymentC2 : Payment :=
  { amount := 50, is_confirmed := true, invoice := some invoiceC2 }

theorem update_status_amount_paid (inv : Invoice) (today : ℤ) :
    (update_status inv today).amount_paid = inv.amount_paid := by
  rw [update_status]
  split_ifs <;> rfl

theorem update_status_amount_due (inv : Invoice) (today : ℤ) :
    (update_status inv today).amount_due = inv.amount_due := by
  rw [update_status]
  split_ifs <;> rfl

theorem apply_to_invoice_confirmed_fst (pa : ℚ) (inv : Invoice) (today : ℤ) :
    (apply_to_invoice ⟨pa, true, some inv⟩ today).1 =
      ⟨pa, true,
        some (update_status { inv with amount_paid := addDec inv.amount_paid pa } today)⟩ :=
  rfl

/-- Claim C2 fails on the code: `apply_to_invoice` keeps no record of having
been applied, so replaying the same confirmed payment double-adds.  The first
application leaves `amount_paid = 50`; the second raises it to `100` instead
of leaving it at 50. -/
theorem C2_second_application_double_adds :
    ((apply_to_invoice paymentC2 0).1.invoice.map Invoice.amount_paid = some 50) ∧
    ((apply_to_invoice (apply_to_invoice paymentC2 0).1 0).1.invoice.map
        Invoice.amount_paid = some 100) := by
  have h50 : addDec 0 50 = 50 := by
    rw [addDec, zero_add]
    exact roundDec_eq_self 50 50 0 (by norm_num) (by norm_num) (by norm_num)
  have h100 : addDec 50 50 = 100 := by
    rw [addDec, show (50 : ℚ) + 50 = 100 by norm_num]
    exact roundDec_eq_self 100 100 0 (by norm_num) (by norm_num) (by norm_num)
  have hpay : paymentC2 = ⟨50, true, some invoiceC2⟩ := rfl
  constructor
  · rw [hpay, apply_to_invoice_confirmed_fst]
    simp [update_status_amount_paid, invoiceC2, h50]
  · rw [hpay, apply_to_invoice_confirmed_fst, apply_to_invoice_confirmed_fst]
    simp [update_status_amount_paid, invoiceC2, h50, h100]

/-- Three active units (shares and occupancy irrelevant for PER_UNIT). -/
def unitsC1 : List Unit :=
  [⟨1, none, none, true⟩, ⟨2, none, none, true⟩, ⟨3, none, none, true⟩]

/-- Claim C1 fails on the code: `calculate_allocations` performs no rounding
to 2 decimal places and assigns no residual cent; a PER_UNIT split of 100
over 3 eligible units returns three raw quotients
`Decimal(100) / 3 = 33.33333333333333333333333333` whose sum is
`99.99999999999999999999999999`, not `100`. -/
theorem C1_sum_not_exact :
    ((calculate_allocations .PER_UNIT unitsC1 100).map Prod.snd).sum =
      9999999999999999999999999999 / 10 ^ 26 ∧
    ((calculate_allocations .PER_UNIT unitsC1 100).map Prod.snd).sum ≠ 100 := by
  have hact : activeUnits unitsC1 = unitsC1 := by simp [activeUnits, unitsC1]
  have hcalc := calculate_allocations_PER_UNIT_eq unitsC1 100
    (by rw [hact]; simp [unitsC1]) (by rw [hact]; simp [unitsC1])
  rw [hact] at hcalc
  rw [hcalc]
  rw [show ((unitsC1.length : ℕ) : ℚ) = 3 by simp [unitsC1]]
  rw [divDec_100_3]
  constructor
  · simp [unitsC1]
    norm_num
  · simp [unitsC1]
    norm_num

/-- Three active units with distinct identifiers. -/
def unitsC7 : List Unit :=
  [⟨11, none, none, true⟩, ⟨12, none, none, true⟩, ⟨13, none, none, true⟩]

/-- Claim C7 fails on the code: the PER_UNIT allocation of 100.00 across 3
units gives every unit `33.33333333333333333333333333` — not 33.33 and not
33.34 — and the amounts sum to `99.99999999999999999999999999`, not 100.00;
no residual cent is assigned to any unit. -/
theorem C7_no_cent_rounding :
    calculate_allocations .PER_UNIT unitsC7 100 =
      [(11, 3333333333333333333333333333 / 10 ^ 26),
       (12, 3333333333333333333333333333 / 10 ^ 26),
       (13, 3333333333333333333333333333 / 10 ^ 26)] ∧
    (3333333333333333333333333333 / 10 ^ 26 : ℚ) ≠ 3333 / 100 ∧
    (3333333333333333333333333333 / 10 ^ 26 : ℚ) ≠ 3334 / 100 ∧
    ((calculate_allocations .PER_UNIT unitsC7 100).map Prod.snd).sum ≠ 100 := by
  have hact : activeUnits unitsC7 = unitsC7 := by simp [activeUnits, unitsC7]
  have hcalc := calculate_allocations_PER_UNIT_eq unitsC7 100
    (by rw [hact]; simp [unitsC7]) (by rw [hact]; simp [unitsC7])
  rw [hact] at hcalc
  rw [show ((unitsC7.length : ℕ) : ℚ) = 3 by simp [unitsC7]] at hcalc
  rw [divDec_100_3] at hcalc
  refine ⟨?_, by norm_num, by norm_num, ?_⟩
  · rw [hcalc]
    simp [unitsC7]
  · rw [hcalc]
    simp [unitsC7]
    norm_num

/-- One active unit with an explicit zero share and zero occupancy. -/
def unitsC6 : List Unit := [⟨1, some 0, some 0, true⟩]

/-- Claim C6 fails on the code: with a zero weight denominator the SHARES and
PER_PERSON branches skip their loops entirely, so the returned mapping is
empty — it does not cover the eligible unit with an amount of 0. -/
theorem C6_counterexample :
    activeUnits unitsC6 = [⟨1, some 0, some 0, true⟩] ∧
    calculate_allocations .SHARES unitsC6 100 = [] ∧
    calculate_allocations .PER_PERSON unitsC6 100 = [] := by
  have h0 : total_shares (activeUnits unitsC6) = 0 := by
    simp [total_shares, activeUnits, unitsC6, sharesOrZero, addDec, roundDec_zero]
  have hP : total_occupants (activeUnits unitsC6) = 0 := by
    simp [total_occupants, activeUnits, unitsC6, occupancyOrZero]
  exact ⟨by simp [activeUnits, unitsC6],
    calculate_allocations_SHARES_zero unitsC6 100 h0,
    calculate_allocations_PER_PERSON_zero unitsC6 100 hP⟩

/-- Claim C6 amended: when the weight denominator is zero (Σ shares = 0 for
SHARES, Σ occupancy = 0 for PER_PERSON), `calculate_allocations` returns the
empty mapping — covering no eligible unit at all — rather than a mapping that
assigns every eligible unit the amount 0. -/
theorem C6_zero_denominator_empty (units : List Unit) (total_amount : ℚ) :
    (total_shares (activeUnits units) = 0 →
      calculate_allocations .SHARES units total_amount = []) ∧
    (total_occupants (activeUnits units) = 0 →
      calculate_allocations .PER_PERSON units total_amount = []) :=
  ⟨calculate_allocations_SHARES_zero units total_amount,
   calculate_allocations_PER_PERSON_zero units total_amount⟩

/-- One active unit with NULL share and NULL occupancy. -/
def unitsC6w : List Unit := [⟨4, none, none, true⟩]

/-- Witness for the amended C6 on a concrete building. -/
theorem C6_zero_denominator_empty_witness :
    calculate_allocations .SHARES unitsC6w 55 = [] ∧
    calculate_allocations .PER_PERSON unitsC6w 55 = [] := by
  have h := C6_zero_denominator_empty unitsC6w 55
  refine ⟨h.1 ?_, h.2 ?_⟩
  · simp [total_shares, activeUnits, unitsC6w, sharesOrZero, addDec, roundDec_zero]
  · simp [total_occupants, activeUnits, unitsC6w, occupancyOrZero]

/-- Claim C9: for an un-allocated SHARES expense whose eligible units' share
sum is zero, `generate_allocations` creates no allocation rows at all, yet
still flips `is_allocated` to true and returns the success result `True` —
the expense ends up permanently marked allocated with zero allocation
rows. -/
theorem C9_zero_share_sum_success (e : Expense) (units : List Unit)
    (rows : List ExpenseAllocation) (now : ℕ)
    (hm : e.method = .SHARES) (hna : e.is_allocated = false)
    (hS : total_shares (activeUnits units) = 0) :
    (generate_allocations e units rows now).rows = rows ∧
    (generate_allocations e units rows now).expense.is_allocated = true ∧
    (generate_allocations e units rows now).returned = true := by
  have hempty : calculate_allocations e.method units e.amount_total = [] := by
    rw [hm]
    exact calculate_allocations_SHARES_zero units e.amount_total hS
  rw [generate_allocations, if_neg (by simp [hna])]
  refine ⟨?_, rfl, rfl⟩
  simp [hempty]

/-- An un-allocated SHARES expense of 100. -/
def expenseC9 : Expense :=
  { id := 7, amount_total := 100, is_allocated := false, method := .SHARES }

/-- One active unit whose share is explicitly 0. -/
def unitsC9 : List Unit := [⟨1, some 0, none, true⟩]

/-- Witness for C9 at a concrete expense and building. -/
theorem C9_zero_share_sum_success_witness :
    (generate_allocations expenseC9 unitsC9 [] 0).rows = [] ∧
    (generate_allocations expenseC9 unitsC9 [] 0).expense.is_allocated = true ∧
    (generate_allocations expenseC9 unitsC9 [] 0).returned = true :=
  C9_zero_share_sum_success expenseC9 unitsC9 [] 0 rfl rfl
    (by simp [total_shares, activeUnits, unitsC9, sharesOrZero, addDec, roundDec_zero])

/-- An un-allocated SHARES expense of 100 (for the C4 counterexample). -/
def expenseC4 : Expense :=
  { id := 8, amount_total := 100, is_allocated := false, method := .SHARES }

/-- One eligible unit with zero share (for the C4 counterexample). -/
def unitsC4 : List Unit := [⟨2, some 0, none, true⟩]

/-- Claim C4 fails as stated on the success path: on this un-allocated SHARES
expense there is one eligible unit, yet `generate_allocations` creates zero
allocation records (the share denominator is zero) — not one per eligible
unit. -/
theorem C4_counterexample :
    expenseC4.is_allocated = false ∧
    (activeUnits unitsC4).length = 1 ∧
    ((generate_allocations expenseC4 unitsC4 [] 0).rows).length = 0 := by
  refine ⟨rfl, by simp [activeUnits, unitsC4], ?_⟩
  have h0 : total_shares (activeUnits unitsC4) = 0 := by
    simp [total_shares, activeUnits, unitsC4, sharesOrZero, addDec, roundDec_zero]
  have hempty : calculate_allocations expenseC4.method unitsC4 expenseC4.amount_total = [] := by
    rw [show expenseC4.method = .SHARES from rfl]
    exact calculate_allocations_SHARES_zero unitsC4 expenseC4.amount_total h0
  rw [generate_allocations, if_neg (by simp [expenseC4])]
  simp [hempty]

/-- Claim C4 amended: `generate_allocations` is a guarded one-shot operation:
on an already-allocated expense it changes nothing and returns `False` (a
distinguishable "skipped" result, not an exception); on an un-allocated
expense it flips `is_allocated`, returns `True`, and appends one allocation
row per entry of the computed allocation mapping, each with a formula
snapshot of the method and total — one row per eligible unit whenever the
method's weight denominator is positive, but none in the zero-denominator
cases of C9. -/
theorem C4_guarded_one_shot (e : Expense) (units : List Unit)
    (rows : List ExpenseAllocation) (now : ℕ) :
    (e.is_allocated = true →
      generate_allocations e units rows now =
        { expense := e, rows := rows, returned := false }) ∧
    (e.is_allocated = false →
      (generate_allocations e units rows now).expense = { e with is_allocated := true } ∧
      (generate_allocations e units rows now).returned = true ∧
      (generate_allocations e units rows now).rows =
        rows ++ (calculate_allocations e.method units e.amount_total).map fun p =>
          { expense_id := e.id, unit_id := p.1, amount := p.2,
            formula_snapshot :=
              { method := e.method.value, total_amount := e.amount_total,
                calculation_date := now } }) ∧
    (((activeUnits units).map Unit.id).Nodup → e.is_allocated = false →
      (e.method = .PER_UNIT → activeUnits units ≠ [] →
        (generate_allocations e units rows now).rows.map ExpenseAllocation.unit_id =
          rows.map ExpenseAllocation.unit_id ++ (activeUnits units).map Unit.id) ∧
      (e.method = .SHARES → 0 < total_shares (activeUnits units) →
        (generate_allocations e units rows now).rows.map ExpenseAllocation.unit_id =
          rows.map ExpenseAllocation.unit_id ++ (activeUnits units).map Unit.id) ∧
      (e.method = .PER_PERSON → 0 < total_occupants (activeUnits units) →
        (generate_allocations e units rows now).rows.map ExpenseAllocation.unit_id =
          rows.map ExpenseAllocation.unit_id ++ (activeUnits units).map Unit.id)) := by
  have hsucc : e.is_allocated = false →
      (generate_allocations e units rows now).rows =
        rows ++ (calculate_allocations e.method units e.amount_total).map fun p =>
          ({ expense_id := e.id, unit_id := p.1, amount := p.2,
             formula_snapshot :=
               { method := e.method.value, total_amount := e.amount_total,
                 calculation_date := now } } : ExpenseAllocation) := by
    intro h
    rw [generate_allocations, if_neg (by simp [h])]
  refine ⟨?_, ?_, ?_⟩
  · intro h
    rw [generate_allocations, if_pos h]
  · intro h
    refine ⟨?_, ?_, hsucc h⟩
    · rw [generate_allocations, if_neg (by simp [h])]
    · rw [generate_allocations, if_neg (by simp [h])]
  · intro hnd h
    have hkeys : ∀ meq : List (ℕ × ℚ),
        calculate_allocations e.method units e.amount_total = meq →
        (generate_allocations e units rows now).rows.map ExpenseAllocation.unit_id =
          rows.map ExpenseAllocation.unit_id ++ meq.map Prod.fst := by
      intro meq hmeq
      rw [hsucc h, List.map_append, List.map_map, hmeq]
      rfl
    refine ⟨fun hm hne => ?_, fun hm hS => ?_, fun hm hP => ?_⟩
    · rw [hkeys _ (by rw [hm]),
        calculate_allocations_PER_UNIT_eq units e.amount_total hnd
          (fun hlen => hne (List.length_eq_zero.mp hlen)),
        List.map_map]
      rfl
    · rw [hkeys _ (by rw [hm]),
        calculate_allocations_SHARES_eq units e.amount_total hnd hS, List.map_map]
      rfl
    · rw [hkeys _ (by rw [hm]),
        calculate_allocations_PER_PERSON_eq units e.amount_total hnd hP, List.map_map]
      rfl

/-- An already-allocated PER_UNIT expense (guard case). -/
def expenseC4a : Expense :=
  { id := 9, amount_total := 60, is_allocated := true, method := .PER_UNIT }

/-- An un-allocated PER_UNIT expense (success case). -/
def expenseC4b : Expense :=
  { id := 10, amount_total := 60, is_allocated := false, method := .PER_UNIT }

/-- Two active units with distinct identifiers. -/
def unitsC4w : List Unit := [⟨21, none, none, true⟩, ⟨22, none, none, true⟩]

/-- Witness for the amended C4: the guard case skips and changes nothing; the
success case creates exactly one row per eligible unit. -/
theorem C4_guarded_one_shot_witness :
    (generate_allocations expenseC4a unitsC4w [] 3 =
      { expense := expenseC4a, rows := [], returned := false }) ∧
    (generate_allocations expenseC4b unitsC4w [] 3).returned = true ∧
    (generate_allocations expenseC4b unitsC4w [] 3).rows.map ExpenseAllocation.unit_id =
      [21, 22] := by
  have ha := (C4_guarded_one_shot expenseC4a unitsC4w [] 3).1 rfl
  have hb := (C4_guarded_one_shot expenseC4b unitsC4w [] 3).2.1 rfl
  have hc := ((C4_guarded_one_shot expenseC4b unitsC4w [] 3).2.2
    (by simp [activeUnits, unitsC4w]) rfl).1 rfl (by simp [activeUnits, unitsC4w])
  refine ⟨ha, hb.2.1, ?_⟩
  rw [hc]
  simp [activeUnits, unitsC4w]

theorem update_status_status_of_eq (a b : Invoice) (today : ℤ)
    (hdue : a.amount_due = b.amount_due) (hpaid : a.amount_paid = b.amount_paid)
    (hdd : a.due_date = b.due_date) (hst : a.status = b.status) :
    (update_status a today).status = (update_status b today).status := by
  simp only [update_status, is_overdue, hdue, hpaid, hdd, hst]
  split_ifs <;> rfl

/-- Claim C8: for every invoice and non-negative fee within the
`Numeric(12, 2)` domain (whole numbers of cents below 10^10 currency units),
`Invoice.add_late_fee` increases `amount_due` by exactly the fee amount,
appends one audit entry recording the fee amount, a timestamp and a reason,
leaves `amount_paid` (and the stored status) unchanged, and does not bypass
the status recompute: a subsequent `update_status` behaves exactly as the
status rule applied to the increased `amount_due`. -/
theorem C8_add_late_fee_exact (inv : Invoice) (fee_amount : ℚ) (now : ℕ) (today : ℤ)
    (k j : ℕ)
    (hdue : inv.amount_due = (k : ℚ) / 100) (hk : k < 10 ^ 12)
    (hfee : fee_amount = (j : ℚ) / 100) (hj : j < 10 ^ 12) :
    (add_late_fee inv fee_amount now).amount_due = inv.amount_due + fee_amount ∧
    (add_late_fee inv fee_amount now).amount_paid = inv.amount_paid ∧
    (add_late_fee inv fee_amount now).status = inv.status ∧
    (add_late_fee inv fee_amount now).late_fees =
      inv.late_fees ++
        [{ amount := fee_amount, date := now, reason := "Late payment fee" }] ∧
    (update_status (add_late_fee inv fee_amount now) today).status =
      (update_status { inv with amount_due := inv.amount_due + fee_amount } today).status := by
  have hsum : inv.amount_due + fee_amount = ((k + j : ℕ) : ℚ) / 10 ^ 2 := by
    rw [hdue, hfee]
    push_cast
    ring_nf
  have hadd : addDec inv.amount_due fee_amount = inv.amount_due + fee_amount := by
    rw [addDec]
    exact roundDec_eq_self _ (k + j) 2 (by norm_num) hsum
      (by calc k + j < 10 ^ 12 + 10 ^ 12 := by omega
        _ < 10 ^ 28 := by norm_num)
  refine ⟨?_, rfl, rfl, rfl, ?_⟩
  · rw [add_late_fee]
    exact hadd
  · exact update_status_status_of_eq _ _ today (by rw [add_late_fee]; exact hadd)
      rfl rfl rfl

/-- A partially paid invoice of 100, 20 already paid. -/
def invoiceC8 : Invoice :=
  { amount_due := 100, amount_paid := 20, due_date := 9,
    status := InvoiceStatusEnum.PARTIAL, late_fees := [] }

/-- Witness for C8: adding a late fee of 25.50 to `invoiceC8` makes
`amount_due = 125.50` exactly, keeps `amount_paid = 20`, and appends the
audit entry. -/
theorem C8_add_late_fee_exact_witness :
    (add_late_fee invoiceC8 (51 / 2) 7).amount_due = 251 / 2 ∧
    (add_late_fee invoiceC8 (51 / 2) 7).amount_paid = 20 ∧
    (add_late_fee invoiceC8 (51 / 2) 7).late_fees =
      [{ amount := 51 / 2, date := 7, reason := "Late payment fee" }] := by
  have h := C8_add_late_fee_exact invoiceC8 (51 / 2) 7 12 10000 2550
    (by norm_num [invoiceC8]) (by norm_num) (by norm_num) (by norm_num)
  refine ⟨?_, ?_, ?_⟩
  · rw [h.1]
    norm_num [invoiceC8]
  · rw [h.2.1]
    rfl
  · rw [h.2.2.2.1]
    simp [invoiceC8]

end SmartHome
